import Mathlib

/- Verification development for the daskinsitu library
   (src/daskinsitu/daskinsitu.py).

   The Python module is embedded shallowly: the process-wide registry of
   open files (the module-level dict named OPEN FILES) becomes an explicit
   state record that is threaded through every function, h5 container
   files become a tree of groups and datasets, and exceptions become an
   Except result.  Machinery that the module only consumes (dask delayed
   construction, slicing) is modelled exactly at the granularity the
   module itself observes: a dask array built by from_h5dataset is the
   record of its deferred read (file path, dataset path, field name) plus
   the shape and dtype metadata it was given, and dask.compute runs the
   deferred reads.  Opening and closing of files is additionally recorded
   in an event trace so that scoped (with-block) opens can be told apart
   from registry opens. -/

namespace Daskinsitu

abbrev FieldName := String

/-- Lookup in an association list by key, first match wins.  This is the
semantics of a Python dict lookup for the dictionaries the module uses. -/
def assocFind {α : Type} : List (String × α) → String → Option α
  | [], _ => none
  | (k, v) :: rest, key => if k = key then some v else assocFind rest key

/-- Element type of a dataset: either a plain scalar type or a structured
(compound) type with named fields of plain scalar types.  HDF5 compound
types with compound members are not used by the library or its tests. -/
inductive Dtype where
  | plain (name : String)
  | structured (fields : List (String × String))
deriving DecidableEq

/-- Mirrors numpy dtype.names: None for a plain dtype, the tuple of field
names for a structured dtype. -/
def Dtype.names : Dtype → Option (List String)
  | .plain _ => none
  | .structured fields => some (fields.map Prod.fst)

/-- Mirrors indexing a numpy dtype with a field name: the dtype of that
field of a structured dtype, or a lookup failure. -/
def Dtype.field : Dtype → String → Option Dtype
  | .plain _, _ => none
  | .structured fields, n => (assocFind fields n).map Dtype.plain

/-- A leaf dataset inside a container file: its shape and element type. -/
structure Dataset where
  shape : List Nat
  dtype : Dtype
deriving DecidableEq

/-- An entry of a container file: a leaf dataset or a group of named
child entries. -/
inductive Entry where
  | dataset (ds : Dataset)
  | group (children : List (String × Entry))

/-- The file system: a mapping from file path to the root entry of the
container file stored there.  A path absent from the list is a file that
does not exist. -/
structure FS where
  files : List (String × Entry)

/-- Mirrors os.path.exists as used by the module. -/
def fileExists (fs : FS) (fp : String) : Bool :=
  (assocFind fs.files fp).isSome

/-- Splits a character list at every slash character. -/
def splitSlashAux : List Char → List Char → List String
  | [], acc => [String.mk acc.reverse]
  | c :: rest, acc =>
      if c = '/' then String.mk acc.reverse :: splitSlashAux rest []
      else splitSlashAux rest (c :: acc)

/-- The nonempty slash-separated segments of an h5 entry path. -/
def pathSegments (p : String) : List String :=
  (splitSlashAux p.toList []).filter (fun s => decide (s ≠ ""))

/-- Navigates a container entry along a list of path segments, the way
h5py resolves an entry path against a file object. -/
def navigate : Entry → List String → Option Entry
  | e, [] => some e
  | .group cs, s :: rest =>
      match assocFind cs s with
      | some c => navigate c rest
      | none => none
  | .dataset _, _ :: _ => none

/-- Resolves an entry path inside the container file at fp. -/
def lookupEntry (fs : FS) (fp ep : String) : Option Entry :=
  match assocFind fs.files fp with
  | none => none
  | some root => navigate root (pathSegments ep)

/-- The error kinds the module can raise: FileNotFoundError,
NotDatasetError, NotGroupError, and the KeyError that h5py raises for a
missing entry path. -/
inductive Err where
  | fileNotFound
  | notDataset
  | notGroup
  | keyError
deriving DecidableEq

/-- Shape and dtype as returned by the metadata resolver. -/
structure DsInfo where
  shape : List Nat
  dtype : Dtype
deriving DecidableEq

/-- A value flowing out of a deferred read: a plain concrete array read
from a dataset (optionally holding one projected field of a structured
dataset), or a FieldsWrapper, the h5py view object returned by
Dataset.fields that still carries projection semantics. -/
inductive Value where
  | arr (ds : Dataset) (field : Option FieldName)
  | wrapper (ds : Dataset) (field : FieldName)
deriving DecidableEq

/-- A value is a plain self-contained array exactly when it is not a
FieldsWrapper view. -/
def Value.isPlainArray : Value → Bool
  | .arr _ _ => true
  | .wrapper _ _ => false

/-- The dtype of the elements a value actually holds. -/
def valueDtype : Value → Option Dtype
  | .arr ds none => some ds.dtype
  | .arr ds (some f) => ds.dtype.field f
  | .wrapper ds f => ds.dtype.field f

/-- The full basic slice written x[0:] in Python, which compute applies
to every result: on a plain array it is a view with the same content, on
a FieldsWrapper it reads the data and projects the field, producing a
plain array of the field values. -/
def fullSlice : Value → Value
  | .arr ds f => .arr ds f
  | .wrapper ds f => .arr ds (some f)

/-- The dask array returned by from_h5dataset, at the granularity the
module observes it: the deferred read parameters handed to dask.delayed
together with the shape and dtype metadata handed to da.from_delayed. -/
structure Lazy where
  file_path : String
  dataset_path : String
  field_name : Option FieldName
  shape : List Nat
  dtype : Dtype
deriving DecidableEq

/-- File open and close events, recorded to distinguish scoped
(with-block) acquisitions from registry acquisitions. -/
inductive Ev where
  | scopedOpen (fp : String)
  | scopedClose (fp : String)
  | regOpen (fp : String)
  | regClose (fp : String)
deriving DecidableEq

/-- The mutable module state: the process-wide open-files dict mapping a
file path to the handle stored for it (handles are numbered in order of
creation so that distinct opens are distinguishable), a counter of
handles created so far, and the event trace. -/
structure St where
  openFiles : List (String × Nat)
  nextId : Nat
  trace : List Ev
deriving DecidableEq

/-- The state at process start: no open files. -/
def initSt : St := ⟨[], 0, []⟩

/-- Embedding of the private helper that raises FileNotFoundError when
the path does not exist, combined with the rest of get_dataset
(daskinsitu.py lines 150..156): checks existence, acquires the file
handle through the registry (returning the stored handle if the path is
already open, otherwise opening the file and storing the fresh handle),
resolves the dataset path through the handle, raises NotDatasetError on
a non-dataset entry, and returns the dataset or, when a field name was
given, the FieldsWrapper view of that field. -/
def get_dataset (fs : FS) (st : St) (fp dp : String) (fn : Option FieldName) :
    Except Err Value × St :=
  if fileExists fs fp = false then (.error .fileNotFound, st)
  else
    let st1 : St :=
      if (assocFind st.openFiles fp).isSome then st
      else
        { openFiles := st.openFiles ++ [(fp, st.nextId)],
          nextId := st.nextId + 1,
          trace := st.trace ++ [.regOpen fp] }
    match lookupEntry fs fp dp with
    | none => (.error .keyError, st1)
    | some (.group _) => (.error .notDataset, st1)
    | some (.dataset ds) =>
        match fn with
        | some f => (.ok (.wrapper ds f), st1)
        | none => (.ok (.arr ds none), st1)

/-- Embedding of get_ds_info (daskinsitu.py lines 159..165): checks
existence, opens the file in a with-block (the block records a scoped
open and a scoped close around its body, and the close happens on every
exit path, success or error, by the semantics of the with statement),
resolves the dataset path, raises NotDatasetError on a non-dataset
entry, and returns the shape of the whole dataset together with its
dtype or, when a field name was given, the dtype of that field. -/
def get_ds_info (fs : FS) (st : St) (fp dp : String) (fn : Option FieldName) :
    Except Err DsInfo × St :=
  if fileExists fs fp = false then (.error .fileNotFound, st)
  else
    let stOpen : St := { st with trace := st.trace ++ [.scopedOpen fp] }
    let body : Except Err DsInfo :=
      match lookupEntry fs fp dp with
      | none => .error .keyError
      | some (.group _) => .error .notDataset
      | some (.dataset ds) =>
          match fn with
          | none => .ok ⟨ds.shape, ds.dtype⟩
          | some f =>
              match ds.dtype.field f with
              | some dt => .ok ⟨ds.shape, dt⟩
              | none => .error .keyError
    (body, { stOpen with trace := stOpen.trace ++ [.scopedClose fp] })

/-- The keyword arguments of from_h5dataset that the module inspects:
shape and dtype, each possibly absent. -/
structure Kwargs where
  shape : Option (List Nat)
  dtype : Option Dtype
deriving DecidableEq

/-- Embedding of from_h5dataset (daskinsitu.py lines 45..77): builds the
deferred read over (file path, dataset path, field name); if shape and
dtype were not both supplied, eagerly calls the metadata resolver and
installs both of its answers into the keyword arguments (dict.update
overwrites); finally hands the deferred read and the metadata to
da.from_delayed, producing the lazy array. -/
def from_h5dataset (fs : FS) (st : St) (fp dp : String) (fn : Option FieldName)
    (kw : Kwargs) : Except Err Lazy × St :=
  if kw.shape.isSome && kw.dtype.isSome then
    (.ok ⟨fp, dp, fn, kw.shape.getD [], kw.dtype.getD (.plain "")⟩, st)
  else
    match get_ds_info fs st fp dp fn with
    | (.error e, st1) => (.error e, st1)
    | (.ok info, st1) => (.ok ⟨fp, dp, fn, info.shape, info.dtype⟩, st1)

/-- The key and dtype pairs the from_h5group loop derives from one child
dataset (daskinsitu.py lines 108..109): when dtype.names is truthy (a
nonempty tuple of field names) one pair per field, keyed by field name
with the dtype of the field; otherwise a single pair keyed by the child
name with the dtype of the dataset itself. -/
def keysDtypes (ds_name : String) (ds : Dataset) : List (String × Dtype) :=
  match ds.dtype.names with
  | some ns =>
      if ns.isEmpty then [(ds_name, ds.dtype)]
      else ns.filterMap (fun n => (ds.dtype.field n).map (fun dt => (n, dt)))
  | none => [(ds_name, ds.dtype)]

/-- Assignment to a Python dict key: replaces the value in place when the
key is present, otherwise appends the binding. -/
def dictInsert {α : Type} (d : List (String × α)) (k : String) (v : α) :
    List (String × α) :=
  if (assocFind d k).isSome then
    d.map (fun p => if p.1 = k then (k, v) else p)
  else d ++ [(k, v)]

/-- The key list of a Python dict modelled as an association list. -/
def dictKeys {α : Type} (d : List (String × α)) : List String :=
  d.map Prod.fst

/-- The inner loop of from_h5group (daskinsitu.py lines 111..114): for
each key and dtype pair derived from a child dataset, stores into the
output dict the lazy array built by from_h5dataset over the dataset path
with shape and dtype supplied explicitly.  Note the source passes no
field name in this call. -/
def groupInner (fs : FS) (st : St) (fp ds_path : String) (shape : List Nat) :
    List (String × Dtype) → List (String × Lazy) →
      Except Err (List (String × Lazy)) × St
  | [], out => (.ok out, st)
  | (key, dtype) :: rest, out =>
      match from_h5dataset fs st fp ds_path none ⟨some shape, some dtype⟩ with
      | (.error e, st1) => (.error e, st1)
      | (.ok lz, st1) =>
          groupInner fs st1 fp ds_path shape rest (dictInsert out key lz)

/-- The outer loop of from_h5group (daskinsitu.py lines 105..114): walks
the children of the group in order, skips every child that is not a
dataset, and for dataset children runs the inner loop over the derived
key and dtype pairs, with the dataset path built from the group path and
the child name. -/
def groupChildren (fs : FS) (st : St) (fp gp : String) :
    List (String × Entry) → List (String × Lazy) →
      Except Err (List (String × Lazy)) × St
  | [], out => (.ok out, st)
  | (ds_name, child) :: rest, out =>
      match child with
      | .group _ => groupChildren fs st fp gp rest out
      | .dataset ds =>
          match groupInner fs st fp (gp ++ "/" ++ ds_name) ds.shape
              (keysDtypes ds_name ds) out with
          | (.error e, st1) => (.error e, st1)
          | (.ok out1, st1) => groupChildren fs st1 fp gp rest out1

/-- Embedding of from_h5group (daskinsitu.py lines 80..115): raises
FileNotFoundError when the file does not exist, opens the file in a
with-block (scoped open and close events recorded around the body),
resolves the group path, raises NotGroupError when the entry is not a
group, and otherwise builds the output dict by the child loop. -/
def from_h5group (fs : FS) (st : St) (fp gp : String) :
    Except Err (List (String × Lazy)) × St :=
  if fileExists fs fp = false then (.error .fileNotFound, st)
  else
    let stOpen : St := { st with trace := st.trace ++ [.scopedOpen fp] }
    let res : Except Err (List (String × Lazy)) × St :=
      match lookupEntry fs fp gp with
      | none => (.error .keyError, stOpen)
      | some (.dataset _) => (.error .notGroup, stOpen)
      | some (.group children) => groupChildren fs stOpen fp gp children []
    (res.1, { res.2 with trace := res.2.trace ++ [.scopedClose fp] })

/-- Embedding of close_open_files (daskinsitu.py lines 142..147): pops
every entry of the open-files dict (popitem removes the most recently
inserted entry first) and closes each handle, leaving the dict empty. -/
def close_open_files (st : St) : St :=
  { openFiles := [],
    nextId := st.nextId,
    trace := st.trace ++ st.openFiles.reverse.map (fun p => Ev.regClose p.1) }

/-- The batched evaluation dask.compute performs on the lazy arrays the
module builds: each deferred read runs against the shared registry state,
and the first error aborts the batch and propagates. -/
def da_compute (fs : FS) (st : St) : List Lazy → Except Err (List Value) × St
  | [] => (.ok [], st)
  | a :: rest =>
      match get_dataset fs st a.file_path a.dataset_path a.field_name with
      | (.error e, st1) => (.error e, st1)
      | (.ok v, st1) =>
          match da_compute fs st1 rest with
          | (.error e, st2) => (.error e, st2)
          | (.ok vs, st2) => (.ok (v :: vs), st2)

/-- The condition tested by the comprehension in compute (daskinsitu.py
line 137).  The source writes x[0:] if is_wrapper else x, testing the
lambda object named is_wrapper itself rather than calling it at x; a
function object is truthy in Python, so the test is constantly true and
the full slice is applied to every result. -/
def is_wrapper_truthiness : Bool := true

/-- Embedding of compute (daskinsitu.py lines 118..139): runs the batched
evaluation, applies the comprehension of line 137 to the results, calls
close_open_files, and returns the tuple.  When the evaluation raises, the
exception propagates immediately: the source has no try or finally
around lines 137..138, so close_open_files is not reached on that path. -/
def compute (fs : FS) (st : St) (args : List Lazy) :
    Except Err (List Value) × St :=
  match da_compute fs st args with
  | (.error e, st1) => (.error e, st1)
  | (.ok xs, st1) =>
      let result := xs.map (fun x => if is_wrapper_truthiness then fullSlice x else x)
      (.ok result, close_open_files st1)

/-- Keys contributed by one child of a group, following the wording of
claim C6: the dataset name for a plain child dataset, the field names of
the element type for a structured child dataset, and nothing for a child
that is not a dataset.  This definition follows the specification text
and is compared against the keys the code produces. -/
def specChildKeys : String × Entry → List String
  | (_, .group _) => []
  | (n, .dataset ds) =>
      match ds.dtype with
      | .plain _ => [n]
      | .structured fields => fields.map Prod.fst

/-- Keys of a whole group following the specification wording: the union,
child by child, of the keys each child contributes. -/
def specGroupKeys : List (String × Entry) → List String
  | [] => []
  | c :: rest => specChildKeys c ++ specGroupKeys rest

/-- Keys contributed by one child as the implementation derives them. -/
def implChildKeys : String × Entry → List String
  | (_, .group _) => []
  | (n, .dataset ds) => (keysDtypes n ds).map Prod.fst

/-- Keys of a whole group as the implementation derives them. -/
def implGroupKeys : List (String × Entry) → List String
  | [] => []
  | c :: rest => implChildKeys c ++ implGroupKeys rest

/-- A dtype is well formed when a structured type has at least one field.
HDF5 rejects compound datatypes without members, so every dtype read from
an actual container file satisfies this. -/
def dtypeWellFormed : Dtype → Bool
  | .plain _ => true
  | .structured fields => !fields.isEmpty

/-- A group child is well formed when a dataset child has a well formed
dtype. -/
def childWellFormed : String × Entry → Bool
  | (_, .dataset ds) => dtypeWellFormed ds.dtype
  | (_, .group _) => true

/-- Shared state of the interleaving model for concurrent registry
acquisition: the open-files dict, the counter of handle ids, and the
count of file opens performed so far (each open creates one handle). -/
structure RaceSt where
  reg : List (String × Nat)
  nextId : Nat
  opens : Nat
deriving DecidableEq

/-- One thread executing the unsynchronized acquire of get_dataset
(daskinsitu.py lines 152..153) for path p, in atomic steps: at pc 0 the
thread runs the membership test of line 152, moving straight to pc 2
when the path is already present (it will then use the stored handle);
at pc 1 it saw the path absent and runs line 153, opening the file and
storing the fresh handle; pc 2 is done.  The membership test and the
open-and-store of the other thread can interleave between the two steps,
which is exactly what the Python module does not guard against. -/
def acquireStep (p : String) (s : RaceSt) (pc : Nat) : RaceSt × Nat :=
  if pc = 0 then
    if (assocFind s.reg p).isSome then (s, 2) else (s, 1)
  else if pc = 1 then
    ({ reg := dictInsert s.reg p s.nextId,
       nextId := s.nextId + 1,
       opens := s.opens + 1 }, 2)
  else (s, pc)

/-- Runs two threads that both acquire the path p, under a schedule:
true means thread one takes its next step, false means thread two does.
The pair of program counters travels with the shared state. -/
def raceRun (p : String) : List Bool → RaceSt × Nat × Nat → RaceSt × Nat × Nat
  | [], s => s
  | b :: rest, (s, pc1, pc2) =>
      if b then
        let r := acquireStep p s pc1
        raceRun p rest (r.1, r.2, pc2)
      else
        let r := acquireStep p s pc2
        raceRun p rest (r.1, pc1, r.2)

/-- The race model start: empty registry, both threads at their first
step, the path not yet open. -/
def raceInit : RaceSt × Nat × Nat := (⟨[], 0, 0⟩, 0, 0)

/-- A concrete plain dataset mirroring the Theta dataset of the test
resource file of the repository. -/
def dsTheta : Dataset := ⟨[3], .plain "f8"⟩

/-- A concrete structured dataset with fields real and imag, mirroring
the Data dataset of the test resource file of the repository. -/
def dsData : Dataset := ⟨[2], .structured [("real", "f8"), ("imag", "f4")]⟩

/-- The children of the concrete group used in the fixtures: a plain
dataset, a structured dataset and a subgroup. -/
def childrenRP : List (String × Entry) :=
  [("Theta", .dataset dsTheta),
   ("Data", .dataset dsData),
   ("Sub", .group [])]

/-- A concrete file system holding one container file with a group that
has a plain child dataset, a structured child dataset and a subgroup. -/
def fsTest : FS :=
  ⟨[("test.h5", .group [("RP", .group childrenRP)])]⟩

/-- The lazy array from_h5group builds for the plain child Theta. -/
def lzTheta : Lazy := ⟨"test.h5", "/RP/Theta", none, [3], .plain "f8"⟩

/-- The lazy array from_h5group builds for the field real of the
structured child Data. -/
def lzReal : Lazy := ⟨"test.h5", "/RP/Data", none, [2], .plain "f8"⟩

/-- The lazy array from_h5group builds for the field imag of the
structured child Data. -/
def lzImag : Lazy := ⟨"test.h5", "/RP/Data", none, [2], .plain "f4"⟩

/-- A lazy array over a file that does not exist, built with explicit
shape and dtype. -/
def lzMissing : Lazy := ⟨"gone.h5", "/x", none, [], .plain "i8"⟩

/-- A lazy array over the structured dataset with a field name, as built
by from_h5dataset when the caller passes the field explicitly. -/
def lzDataField : Lazy := ⟨"test.h5", "/RP/Data", some "real", [2], .plain "f8"⟩

/-- One operation against the shared registry state: a deferred read
executed by the engine, or a bulk close. -/
inductive Op where
  | read (fp dp : String) (fn : Option FieldName)
  | closeAll

/-- Runs one operation, keeping only the state. -/
def runOp (fs : FS) (st : St) : Op → St
  | .read fp dp fn => (get_dataset fs st fp dp fn).2
  | .closeAll => close_open_files st

/-- Runs a sequence of operations from a starting state. -/
def runOps (fs : FS) (st : St) (ops : List Op) : St :=
  ops.foldl (runOp fs) st



/-- A key is found by assocFind exactly when it occurs among the keys. -/
theorem assocFind_isSome_iff_mem {α : Type} (l : List (String × α)) (k : String) :
    (assocFind l k).isSome = true ↔ k ∈ l.map Prod.fst := by
  induction l with
  | nil => simp [assocFind]
  | cons p rest ih =>
      obtain ⟨k1, v⟩ := p
      by_cases h : k1 = k
      · subst h; simp [assocFind]
      · simp [assocFind, h, ih, Ne.symm h]

/-- A key missed by assocFind does not occur among the keys. -/
theorem not_mem_of_assocFind_eq_none {α : Type} {l : List (String × α)}
    {k : String} (h : assocFind l k = none) : k ∉ l.map Prod.fst := by
  intro hmem
  have := (assocFind_isSome_iff_mem l k).2 hmem
  rw [h] at this
  exact Bool.noConfusion this

/-- Replacing the value stored at a key leaves the key list unchanged. -/
theorem dictKeys_replace {α : Type} (d : List (String × α)) (k : String) (v : α) :
    dictKeys (d.map (fun p => if p.1 = k then (k, v) else p)) = dictKeys d := by
  unfold dictKeys
  rw [List.map_map]
  refine List.map_congr_left ?_
  intro p _
  by_cases h : p.1 = k
  · simp [h]
  · simp [h]

/-- Membership in the keys of a dict after an assignment: the old keys
plus the assigned key. -/
theorem mem_dictKeys_dictInsert {α : Type} (d : List (String × α)) (k : String)
    (v : α) (x : String) :
    x ∈ dictKeys (dictInsert d k v) ↔ x ∈ dictKeys d ∨ x = k := by
  unfold dictInsert
  by_cases hs : (assocFind d k).isSome = true
  · rw [if_pos hs, dictKeys_replace]
    have hk : k ∈ dictKeys d := (assocFind_isSome_iff_mem d k).1 hs
    constructor
    · exact fun h => Or.inl h
    · rintro (h | rfl)
      · exact h
      · exact hk
  · rw [if_neg hs]
    simp [dictKeys]

/-- Collecting the field dtypes along a list of names that all occur in
the fields keeps exactly those names as keys. -/
theorem keys_filterMap_field (fields : List (String × String)) :
    ∀ ns : List String, (∀ m ∈ ns, m ∈ fields.map Prod.fst) →
      (ns.filterMap
        (fun n => ((Dtype.structured fields).field n).map (fun dt => (n, dt)))).map
          Prod.fst = ns := by
  intro ns
  induction ns with
  | nil => simp
  | cons m rest ih =>
      intro h
      have hm : m ∈ fields.map Prod.fst := h m (by simp)
      have hsome : (assocFind fields m).isSome = true :=
        (assocFind_isSome_iff_mem fields m).2 hm
      obtain ⟨v, hv⟩ := Option.isSome_iff_exists.mp hsome
      have hrest := ih (fun x hx => h x (by simp [hx]))
      have hfm : (fun n =>
          ((Dtype.structured fields).field n).map (fun dt => (n, dt))) m =
            some (m, Dtype.plain v) := by
        simp [Dtype.field, hv]
      simp only [List.filterMap_cons, hfm]
      rw [List.map_cons, hrest]

/-- On a well formed dtype, the keys the implementation derives for one
dataset child are exactly the keys the specification names for it. -/
theorem implChildKeys_eq_specChildKeys (c : String × Entry)
    (h : childWellFormed c = true) : implChildKeys c = specChildKeys c := by
  obtain ⟨n, child⟩ := c
  cases child with
  | group cs => rfl
  | dataset ds =>
      obtain ⟨sh, dt⟩ := ds
      cases dt with
      | plain t => simp [implChildKeys, specChildKeys, keysDtypes, Dtype.names]
      | structured fields =>
          have hne : fields.isEmpty = false := by
            simpa [childWellFormed, dtypeWellFormed] using h
          have hmapne : (fields.map Prod.fst).isEmpty = false := by
            cases fields with
            | nil => exact absurd hne (by simp)
            | cons p rest => simp
          simp only [implChildKeys, specChildKeys, keysDtypes, Dtype.names,
            hmapne, Bool.false_eq_true, if_false]
          exact keys_filterMap_field fields (fields.map Prod.fst) (fun m hm => hm)

/-- On well formed children, the implementation and the specification
derive the same group keys. -/
theorem implGroupKeys_eq_specGroupKeys :
    ∀ children : List (String × Entry), children.all childWellFormed = true →
      implGroupKeys children = specGroupKeys children := by
  intro children
  induction children with
  | nil => intro _; rfl
  | cons c rest ih =>
      intro h
      rw [List.all_cons, Bool.and_eq_true] at h
      simp [implGroupKeys, specGroupKeys, implChildKeys_eq_specChildKeys c h.1,
        ih h.2]

/-- The inner loop of from_h5group always succeeds, leaves the state
untouched (shape and dtype are supplied, so the resolver is never
called), and extends the output keys by the keys of the processed pairs. -/
theorem groupInner_run (fs : FS) (st : St) (fp dsp : String) (sh : List Nat) :
    ∀ (kds : List (String × Dtype)) (out : List (String × Lazy)),
      ∃ out1, groupInner fs st fp dsp sh kds out = (.ok out1, st) ∧
        ∀ x, x ∈ dictKeys out1 ↔ x ∈ dictKeys out ∨ x ∈ kds.map Prod.fst := by
  intro kds
  induction kds with
  | nil =>
      intro out
      exact ⟨out, rfl, by simp⟩
  | cons kd rest ih =>
      intro out
      obtain ⟨key, dtype⟩ := kd
      obtain ⟨out1, heq, hmem⟩ :=
        ih (dictInsert out key (⟨fp, dsp, none, sh, dtype⟩ : Lazy))
      refine ⟨out1, ?_, ?_⟩
      · simpa [groupInner, from_h5dataset] using heq
      · intro x
        rw [hmem x, mem_dictKeys_dictInsert]
        simp
        tauto

/-- The child loop of from_h5group always succeeds, leaves the state
untouched, and extends the output keys by the keys the implementation
derives from the dataset children. -/
theorem groupChildren_run (fs : FS) (st : St) (fp gp : String) :
    ∀ (children : List (String × Entry)) (out : List (String × Lazy)),
      ∃ out1, groupChildren fs st fp gp children out = (.ok out1, st) ∧
        ∀ x, x ∈ dictKeys out1 ↔ x ∈ dictKeys out ∨ x ∈ implGroupKeys children := by
  intro children
  induction children with
  | nil =>
      intro out
      exact ⟨out, rfl, by simp [implGroupKeys]⟩
  | cons c rest ih =>
      intro out
      obtain ⟨n, child⟩ := c
      cases child with
      | group cs =>
          obtain ⟨out1, heq, hmem⟩ := ih out
          refine ⟨out1, by simpa [groupChildren] using heq, ?_⟩
          intro x
          rw [hmem x]
          simp [implGroupKeys, implChildKeys]
      | dataset ds =>
          obtain ⟨outA, heqA, hmemA⟩ :=
            groupInner_run fs st fp (gp ++ "/" ++ n) ds.shape (keysDtypes n ds) out
          obtain ⟨out1, heq, hmem⟩ := ih outA
          refine ⟨out1, ?_, ?_⟩
          · simp [groupChildren, heqA, heq]
          · intro x
            rw [hmem x, hmemA x]
            simp [implGroupKeys, implChildKeys]
            tauto

/-- The state a deferred read leaves behind: unchanged when the file is
missing or already open, otherwise grown by one fresh handle for it. -/
theorem get_dataset_snd (fs : FS) (st : St) (fp dp : String)
    (fn : Option FieldName) :
    (get_dataset fs st fp dp fn).2 =
      if fileExists fs fp = false then st
      else if (assocFind st.openFiles fp).isSome then st
      else ⟨st.openFiles ++ [(fp, st.nextId)], st.nextId + 1,
        st.trace ++ [.regOpen fp]⟩ := by
  unfold get_dataset
  by_cases hex : fileExists fs fp = false
  · simp [hex]
  · simp only [hex, Bool.false_eq_true, if_false]
    by_cases hm : (assocFind st.openFiles fp).isSome
    · simp only [hm, if_true]
      cases hl : lookupEntry fs fp dp with
      | none => rfl
      | some e =>
          cases e with
          | group cs => rfl
          | dataset ds => cases fn <;> rfl
    · simp only [hm, Bool.false_eq_true, if_false]
      cases hl : lookupEntry fs fp dp with
      | none => rfl
      | some e =>
          cases e with
          | group cs => rfl
          | dataset ds => cases fn <;> rfl

/-- A resolved entry path implies the file exists. -/
theorem fileExists_of_lookupEntry {fs : FS} {fp ep : String} {e : Entry}
    (h : lookupEntry fs fp ep = some e) : fileExists fs fp = true := by
  unfold lookupEntry at h
  unfold fileExists
  cases hf : assocFind fs.files fp with
  | none => rw [hf] at h; simp at h
  | some root => rfl

/-- One registry operation preserves distinctness of the open paths. -/
theorem runOp_nodup (fs : FS) (op : Op) (st : St)
    (h : (dictKeys st.openFiles).Nodup) :
    (dictKeys (runOp fs st op).openFiles).Nodup := by
  cases op with
  | closeAll => simp [runOp, close_open_files, dictKeys]
  | read fp dp fn =>
      show (dictKeys (get_dataset fs st fp dp fn).2.openFiles).Nodup
      rw [get_dataset_snd]
      by_cases hex : fileExists fs fp = false
      · simpa [hex] using h
      · by_cases hm : (assocFind st.openFiles fp).isSome
        · simpa [hex, hm] using h
        · have hfp : fp ∉ dictKeys st.openFiles := fun hmem =>
            hm ((assocFind_isSome_iff_mem st.openFiles fp).2 hmem)
          have hgoal : (dictKeys (st.openFiles ++ [(fp, st.nextId)])).Nodup := by
            have hperm : (dictKeys (st.openFiles ++ [(fp, st.nextId)])).Perm
                (fp :: dictKeys st.openFiles) := by
              simp [dictKeys]
            rw [hperm.nodup_iff, List.nodup_cons]
            exact ⟨hfp, h⟩
          simpa [hex, hm] using hgoal

/-- Any operation sequence from a state with distinct open paths ends in
a state with distinct open paths. -/
theorem runOps_nodup (fs : FS) :
    ∀ (ops : List Op) (st : St), (dictKeys st.openFiles).Nodup →
      (dictKeys (runOps fs st ops).openFiles).Nodup := by
  intro ops
  induction ops with
  | nil => intro st h; exact h
  | cons op rest ih =>
      intro st h
      have hstep := runOp_nodup fs op st h
      simpa [runOps, List.foldl_cons] using ih (runOp fs st op) hstep

/-- C4: the deferred-read acquire step returns the already-stored handle
when the file path is present in the registry (the registry is left
unchanged, so the handle used is the stored one) and otherwise opens the
file, stores the fresh handle and uses it; consequently, after any
sequence of deferred reads and bulk closes starting from process start,
the registry maps each file path to at most one open handle: its open
paths are pairwise distinct. -/
theorem c4_registry_at_most_one_handle (fs : FS) (ops : List Op) (st : St)
    (fp dp : String) (fn : Option FieldName) :
    (dictKeys (runOps fs initSt ops).openFiles).Nodup ∧
    ((assocFind st.openFiles fp).isSome = true →
      (get_dataset fs st fp dp fn).2.openFiles = st.openFiles) ∧
    (fileExists fs fp = true → assocFind st.openFiles fp = none →
      (get_dataset fs st fp dp fn).2.openFiles =
        st.openFiles ++ [(fp, st.nextId)]) := by
  refine ⟨runOps_nodup fs ops initSt (by simp [initSt, dictKeys]), ?_, ?_⟩
  · intro hm
    rw [get_dataset_snd]
    by_cases hex : fileExists fs fp = false <;> simp [hex, hm]
  · intro hex hnone
    rw [get_dataset_snd]
    simp [hex, hnone]

/-- C4 witness: on the concrete fixture, a read with the path already
open leaves the registry unchanged, and a read from the empty registry
stores exactly one handle for the path. -/
theorem c4_witness :
    (get_dataset fsTest (⟨[("test.h5", 0)], 1, []⟩ : St) "test.h5" "/RP/Theta"
        none).2.openFiles = [("test.h5", 0)] ∧
    (get_dataset fsTest initSt "test.h5" "/RP/Theta" none).2.openFiles =
      [("test.h5", 0)] := by
  constructor
  · exact (c4_registry_at_most_one_handle fsTest []
      (⟨[("test.h5", 0)], 1, []⟩ : St) "test.h5" "/RP/Theta" none).2.1 (by decide)
  · exact (c4_registry_at_most_one_handle fsTest [] initSt "test.h5"
      "/RP/Theta" none).2.2 (by decide) (by decide)

/-- C5: from_h5group fails fast: a missing file gives FileNotFound with
the state untouched, a group path that resolves to a leaf dataset gives
NotGroupError, and whenever the call errors the caller gets no mapping at
all (the result carries either a complete mapping or an error) and the
registry part of the state is unchanged. -/
theorem c5_group_fail_fast (fs : FS) (st : St) (fp gp : String) :
    (fileExists fs fp = false →
      from_h5group fs st fp gp = (.error .fileNotFound, st)) ∧
    (∀ d, lookupEntry fs fp gp = some (.dataset d) →
      (from_h5group fs st fp gp).1 = .error .notGroup) ∧
    (∀ e, (from_h5group fs st fp gp).1 = .error e →
      (from_h5group fs st fp gp).2.openFiles = st.openFiles ∧
      (from_h5group fs st fp gp).2.nextId = st.nextId) := by
  refine ⟨?_, ?_, ?_⟩
  · intro hex
    simp [from_h5group, hex]
  · intro d hd
    have hex := fileExists_of_lookupEntry hd
    simp [from_h5group, hex, hd]
  · intro e he
    by_cases hex : fileExists fs fp = false
    · constructor <;> simp [from_h5group, hex]
    · cases hl : lookupEntry fs fp gp with
      | none => constructor <;> simp [from_h5group, hex, hl]
      | some ent =>
          cases ent with
          | dataset d => constructor <;> simp [from_h5group, hex, hl]
          | group children =>
              obtain ⟨out1, heq, hmem⟩ := groupChildren_run fs
                { st with trace := st.trace ++ [Ev.scopedOpen fp] } fp gp
                children []
              simp [from_h5group, hex, hl, heq] at he

/-- C5 witness: on the concrete fixture, a missing file gives
FileNotFound with the state untouched, and a dataset path gives
NotGroupError while the registry stays empty. -/
theorem c5_witness :
    from_h5group fsTest initSt "gone.h5" "/RP" = (.error .fileNotFound, initSt) ∧
    (from_h5group fsTest initSt "test.h5" "/RP/Theta").1 = .error .notGroup ∧
    (from_h5group fsTest initSt "test.h5" "/RP/Theta").2.openFiles = [] := by
  refine ⟨(c5_group_fail_fast fsTest initSt "gone.h5" "/RP").1 (by decide),
    (c5_group_fail_fast fsTest initSt "test.h5" "/RP/Theta").2.1 dsTheta rfl, ?_⟩
  exact ((c5_group_fail_fast fsTest initSt "test.h5" "/RP/Theta").2.2 .notGroup
    ((c5_group_fail_fast fsTest initSt "test.h5" "/RP/Theta").2.1 dsTheta rfl)).1

/-- C6: the key set of the mapping from_h5group returns is exactly the
dataset name for each plain child dataset together with the field names
of the element type for each structured child dataset, and children that
are not datasets contribute no keys.  Structured dtypes are assumed to
have at least one field, as HDF5 rejects compound datatypes without
members. -/
theorem c6_group_key_set (fs : FS) (st : St) (fp gp : String)
    (children : List (String × Entry)) (out : List (String × Lazy)) (st1 : St)
    (hwf : children.all childWellFormed = true)
    (hlook : lookupEntry fs fp gp = some (.group children))
    (hrun : from_h5group fs st fp gp = (.ok out, st1)) :
    ∀ k, k ∈ dictKeys out ↔ k ∈ specGroupKeys children := by
  have hex := fileExists_of_lookupEntry hlook
  obtain ⟨out1, heq, hmem⟩ := groupChildren_run fs
    { st with trace := st.trace ++ [Ev.scopedOpen fp] } fp gp children []
  have h1 : (from_h5group fs st fp gp).1 = .ok out1 := by
    simp [from_h5group, hex, hlook, heq]
  rw [hrun] at h1
  injection h1 with h2
  intro k
  rw [h2, hmem k, implGroupKeys_eq_specGroupKeys children hwf]
  simp [dictKeys]

/-- C6 witness: on the concrete fixture group, the key real produced for
the structured child is indeed among the specification keys. -/
theorem c6_witness :
    ("real" ∈ dictKeys [("Theta", lzTheta), ("real", lzReal), ("imag", lzImag)] ↔
      "real" ∈ specGroupKeys childrenRP) :=
  c6_group_key_set fsTest initSt "test.h5" "/RP" childrenRP
    [("Theta", lzTheta), ("real", lzReal), ("imag", lzImag)]
    (⟨[], 0, [.scopedOpen "test.h5", .scopedClose "test.h5"]⟩ : St)
    (by decide) rfl rfl "real"

/-- C3: from_h5dataset consults the metadata resolver eagerly at
construction time exactly when shape and dtype were not both supplied:
with both supplied it returns the lazy array at once, no matter whether
the file exists, and with either missing the call reduces to the
resolver call, whose outcome (including FileNotFound for a missing file)
decides the construction; the escape-hatch lazy array over a missing
file then fails with FileNotFound only when computed. -/
theorem c3_eager_resolution (fs : FS) (st : St) (fp dp : String)
    (fn : Option FieldName) :
    (∀ sh dt, from_h5dataset fs st fp dp fn ⟨some sh, some dt⟩ =
      (.ok ⟨fp, dp, fn, sh, dt⟩, st)) ∧
    (∀ kw : Kwargs, (kw.shape.isSome && kw.dtype.isSome) = false →
      from_h5dataset fs st fp dp fn kw =
        (match get_ds_info fs st fp dp fn with
         | (.error e, st1) => (.error e, st1)
         | (.ok info, st1) => (.ok ⟨fp, dp, fn, info.shape, info.dtype⟩, st1))) ∧
    (fileExists fs fp = false →
      (∀ kw : Kwargs, (kw.shape.isSome && kw.dtype.isSome) = false →
        from_h5dataset fs st fp dp fn kw = (.error .fileNotFound, st)) ∧
      (∀ sh dt, compute fs st [(⟨fp, dp, fn, sh, dt⟩ : Lazy)] =
        (.error .fileNotFound, st))) := by
  refine ⟨?_, ?_, ?_⟩
  · intro sh dt
    simp [from_h5dataset]
  · intro kw hkw
    simp [from_h5dataset, hkw]
  · intro hex
    constructor
    · intro kw hkw
      simp [from_h5dataset, hkw, get_ds_info, hex]
    · intro sh dt
      simp [compute, da_compute, get_dataset, hex]

/-- C3 witness: constructing over a missing file succeeds with explicit
shape and dtype, fails at construction without them, and the constructed
lazy array fails with FileNotFound when computed. -/
theorem c3_witness :
    from_h5dataset fsTest initSt "gone.h5" "/x" none
        ⟨some [], some (.plain "i8")⟩ =
      (.ok ⟨"gone.h5", "/x", none, [], .plain "i8"⟩, initSt) ∧
    from_h5dataset fsTest initSt "gone.h5" "/x" none ⟨none, none⟩ =
      (.error .fileNotFound, initSt) ∧
    compute fsTest initSt [lzMissing] = (.error .fileNotFound, initSt) := by
  refine ⟨(c3_eager_resolution fsTest initSt "gone.h5" "/x" none).1 []
      (.plain "i8"), ?_, ?_⟩
  · have h := ((c3_eager_resolution fsTest initSt "gone.h5" "/x" none).2.2
      (by decide)).1 ⟨none, none⟩ (by decide)
    exact h
  · exact ((c3_eager_resolution fsTest initSt "gone.h5" "/x" none).2.2
      (by decide)).2 [] (.plain "i8")

/-- C7: the metadata resolver leaves the shared registry untouched (open
files and handle counter unchanged, and its result does not depend on the
registry state at all), performs either no open or one scoped open that
is matched by a scoped close on every exit path, and, given a field name
for a structured dataset, returns the dtype of that field together with
the shape of the whole dataset. -/
theorem c7_resolver_scoped (fs : FS) (st : St) (fp dp : String)
    (fn : Option FieldName) :
    (get_ds_info fs st fp dp fn).2.openFiles = st.openFiles ∧
    (get_ds_info fs st fp dp fn).2.nextId = st.nextId ∧
    (∀ st2 : St, (get_ds_info fs st2 fp dp fn).1 = (get_ds_info fs st fp dp fn).1) ∧
    ((get_ds_info fs st fp dp fn).2.trace = st.trace ∨
      (get_ds_info fs st fp dp fn).2.trace =
        st.trace ++ [.scopedOpen fp, .scopedClose fp]) ∧
    (∀ ds dt f, lookupEntry fs fp dp = some (.dataset ds) → fn = some f →
      ds.dtype.field f = some dt →
      (get_ds_info fs st fp dp fn).1 = .ok ⟨ds.shape, dt⟩) := by
  refine ⟨?_, ?_, ?_, ?_, ?_⟩
  · by_cases hex : fileExists fs fp = false <;> simp [get_ds_info, hex]
  · by_cases hex : fileExists fs fp = false <;> simp [get_ds_info, hex]
  · intro st2
    by_cases hex : fileExists fs fp = false <;> simp [get_ds_info, hex]
  · by_cases hex : fileExists fs fp = false
    · left; simp [get_ds_info, hex]
    · right; simp [get_ds_info, hex]
  · intro ds dt f hlook hfn hfield
    have hex := fileExists_of_lookupEntry hlook
    subst hfn
    simp [get_ds_info, hex, hlook, hfield]

/-- C7 witness: on the concrete structured dataset the resolver returns
the field dtype with the shape of the whole dataset, and the registry is
untouched. -/
theorem c7_witness :
    (get_ds_info fsTest initSt "test.h5" "/RP/Data" (some "real")).1 =
      .ok ⟨[2], .plain "f8"⟩ ∧
    (get_ds_info fsTest initSt "test.h5" "/RP/Data" (some "real")).2.openFiles =
      [] := by
  constructor
  · exact (c7_resolver_scoped fsTest initSt "test.h5" "/RP/Data"
      (some "real")).2.2.2.2 dsData (.plain "f8") "real" rfl rfl rfl
  · exact (c7_resolver_scoped fsTest initSt "test.h5" "/RP/Data"
      (some "real")).1

/-- C8: when the batched evaluation succeeds, compute applies the full
slice to every result before returning; the full slice turns a
FieldsWrapper into the plain array of the projected field, so every
value compute returns is a plain self-contained array. -/
theorem c8_compute_materializes (fs : FS) (st : St) (args : List Lazy)
    (xs : List Value) (st1 : St)
    (h : da_compute fs st args = (.ok xs, st1)) :
    (compute fs st args).1 = .ok (xs.map fullSlice) ∧
    (∀ ds f, fullSlice (Value.wrapper ds f) = Value.arr ds (some f)) ∧
    (∀ v ∈ xs.map fullSlice, v.isPlainArray = true) := by
  refine ⟨?_, fun ds f => rfl, ?_⟩
  · simp [compute, h, is_wrapper_truthiness]
  · intro v hv
    obtain ⟨x, _, rfl⟩ := List.mem_map.mp hv
    cases x <;> rfl

/-- C8 witness: computing a field-projected lazy array over the
structured dataset, whose deferred read yields a FieldsWrapper, returns
the materialized plain array of the field. -/
theorem c8_witness :
    (compute fsTest initSt [lzDataField]).1 =
      .ok [Value.arr dsData (some "real")] :=
  (c8_compute_materializes fsTest initSt [lzDataField]
    [Value.wrapper dsData "real"]
    (⟨[("test.h5", 0)], 1, [.regOpen "test.h5"]⟩ : St) rfl).1

/-- C10: the deferred read also validates the entry kind at evaluation
time: over an entry path that resolves to a group rather than a leaf
dataset, the read raises NotDatasetError, and computing a lazy array
built over such a path (for instance with explicit shape and dtype)
fails with NotDatasetError. -/
theorem c10_eval_not_dataset (fs : FS) (st : St) (fp dp : String)
    (fn : Option FieldName) (sh : List Nat) (dt : Dtype)
    (cs : List (String × Entry))
    (hlook : lookupEntry fs fp dp = some (.group cs)) :
    (get_dataset fs st fp dp fn).1 = .error .notDataset ∧
    (compute fs st [(⟨fp, dp, fn, sh, dt⟩ : Lazy)]).1 = .error .notDataset := by
  have hex := fileExists_of_lookupEntry hlook
  have h1 : (get_dataset fs st fp dp fn).1 = .error .notDataset := by
    by_cases hm : (assocFind st.openFiles fp).isSome <;>
      simp [get_dataset, hex, hlook, hm]
  refine ⟨h1, ?_⟩
  simp only [compute, da_compute]
  cases hg : get_dataset fs st fp dp fn with
  | mk r st2 =>
      have : r = .error .notDataset := by rw [← h1, hg]
      subst this
      rfl

/-- C10 witness: computing a lazy array built with explicit shape and
dtype over the group path of the fixture fails with NotDatasetError. -/
theorem c10_witness :
    (compute fsTest initSt [(⟨"test.h5", "/RP", none, [], .plain "i8"⟩ :
        Lazy)]).1 = .error .notDataset :=
  (c10_eval_not_dataset fsTest initSt "test.h5" "/RP" none [] (.plain "i8")
    childrenRP rfl).2

/-- C1: the guaranteed-cleanup contract fails on the error path.  The
body of compute (daskinsitu.py lines 136..139) has no try or finally, so
when the batched evaluation raises (here: FileNotFoundError because the
second lazy array references a vanished file after the first read has
already opened and registered its file), close_open_files is never
reached and the registry still holds the open handle after compute has
raised.  This evaluates the code at the concrete failing input. -/
theorem c1_error_path_skips_close :
    (compute fsTest initSt [lzTheta, lzMissing]).1 = .error .fileNotFound ∧
    (compute fsTest initSt [lzTheta, lzMissing]).2.openFiles =
      [("test.h5", 0)] ∧
    (compute fsTest initSt [lzTheta]).2.openFiles = [] :=
  ⟨rfl, rfl, rfl⟩

/-- C2: from_h5group drops the field name.  The loop at daskinsitu.py
lines 111..114 calls from_h5dataset with only shape and dtype, never
passing the field name the key was derived from, so the lazy array keyed
by the field name real carries no field name, and computing it returns
the whole structured array (dtype structured) instead of the values of
the real field (dtype f8, the dtype the lazy array itself declares).
This evaluates the code at the concrete failing input. -/
theorem c2_group_drops_field_name :
    (from_h5group fsTest initSt "test.h5" "/RP").1 =
      .ok [("Theta", lzTheta), ("real", lzReal), ("imag", lzImag)] ∧
    lzReal.field_name = none ∧
    (compute fsTest initSt [lzReal]).1 = .ok [Value.arr dsData none] ∧
    valueDtype (Value.arr dsData none) =
      some (.structured [("real", "f8"), ("imag", "f4")]) ∧
    lzReal.dtype = .plain "f8" ∧
    valueDtype (Value.arr dsData none) ≠ some lzReal.dtype :=
  ⟨rfl, rfl, rfl, rfl, rfl, by decide⟩

/-- C9 counterexample: with the unsynchronized membership test and
open-and-store of get_dataset lines 152..153, the interleaving in which
both threads run the membership test before either opens makes both
threads open the file: two handles are created for the same path, and
the store of the second overwrites the handle of the first, which leaks.
This refutes the claim that at most one handle is ever created. -/
theorem c9_counterexample :
    (raceRun "a.h5" [true, false, true, false] raceInit).1.opens = 2 ∧
    ¬ (raceRun "a.h5" [true, false, true, false] raceInit).1.opens ≤ 1 ∧
    assocFind (raceRun "a.h5" [true, false, true, false] raceInit).1.reg
      "a.h5" = some 1 := by
  decide

/-- C9 amended: the acquire step is an unsynchronized check-then-open;
when the two acquires of the same not-yet-open path do not interleave
(either thread runs to completion before the other starts), exactly one
handle is created, it is the one stored, and the second thread observes
it through the membership test instead of opening again. -/
theorem c9_serial_acquire_single_handle (p : String) :
    raceRun p [true, true, false, false] raceInit =
      (⟨[(p, 0)], 1, 1⟩, 2, 2) ∧
    raceRun p [false, false, true, true] raceInit =
      (⟨[(p, 0)], 1, 1⟩, 2, 2) := by
  constructor <;>
    simp [raceRun, raceInit, acquireStep, assocFind, dictInsert]

end Daskinsitu
